import Mathlib

/-!
Verification development for the `calc-inv` investment projection calculator.

The projection engine lives in `src/App.jsx`, inside the `calculate` function
(lines 244-367).  All of its arithmetic is JavaScript double arithmetic; we
embed it with exact rationals, together with the IEEE special values `NaN`
and `±Infinity` that the source can actually produce (the fixed-rate branch
divides by the monthly rate, which is `0/0 = NaN` at a zero rate, and the
benchmark branch reads a misspelled object field, whose `undefined` value
turns into `NaN` under multiplication).  Exact rationals idealise the double
rounding; the numeric claims of the specification are stated with explicit
tolerances, which absorb that idealisation.
-/

namespace CalcInv

/-- A JavaScript number: a finite value (idealised as an exact rational),
`NaN`, or a signed infinity.  The source never produces `-0`, so a single
zero suffices. -/
inductive JSNum where
  | num : ℚ → JSNum
  | nan : JSNum
  | posInf : JSNum
  | negInf : JSNum
  deriving DecidableEq, Repr

/-- A JavaScript value as far as the engine needs it: a number or
`undefined` (the result of reading an absent object field). -/
inductive JSVal where
  | num : ℚ → JSVal
  | undefinedV : JSVal
  deriving DecidableEq, Repr

/-- `ToNumber` coercion applied by arithmetic operators:
`ToNumber(undefined) = NaN`. -/
def JSVal.toNumber : JSVal → JSNum
  | .num q => .num q
  | .undefinedV => .nan

/-- JavaScript (IEEE-754) addition on the embedded numbers. -/
def jsAdd : JSNum → JSNum → JSNum
  | .num a, .num b => .num (a + b)
  | .nan, _ => .nan
  | _, .nan => .nan
  | .posInf, .negInf => .nan
  | .negInf, .posInf => .nan
  | .posInf, _ => .posInf
  | _, .posInf => .posInf
  | .negInf, _ => .negInf
  | _, .negInf => .negInf

/-- IEEE negation. -/
def jsNeg : JSNum → JSNum
  | .num a => .num (-a)
  | .nan => .nan
  | .posInf => .negInf
  | .negInf => .posInf

/-- JavaScript subtraction, `a - b = a + (-b)`. -/
def jsSub (a b : JSNum) : JSNum := jsAdd a (jsNeg b)

/-- JavaScript multiplication: `NaN` propagates, `Infinity * 0 = NaN`,
otherwise infinities follow the sign rule. -/
def jsMul : JSNum → JSNum → JSNum
  | .num a, .num b => .num (a * b)
  | .nan, _ => .nan
  | _, .nan => .nan
  | .posInf, .posInf => .posInf
  | .posInf, .negInf => .negInf
  | .negInf, .posInf => .negInf
  | .negInf, .negInf => .posInf
  | .posInf, .num b => if b = 0 then .nan else if 0 < b then .posInf else .negInf
  | .num a, .posInf => if a = 0 then .nan else if 0 < a then .posInf else .negInf
  | .negInf, .num b => if b = 0 then .nan else if 0 < b then .negInf else .posInf
  | .num a, .negInf => if a = 0 then .nan else if 0 < a then .negInf else .posInf

/-- JavaScript division: `0/0 = NaN`, `x/0 = ±Infinity` for `x ≠ 0`
(rationals have no `-0`, and the engine never divides by a negative zero),
`x/±Infinity = 0`, `Infinity/Infinity = NaN`. -/
def jsDiv : JSNum → JSNum → JSNum
  | .num a, .num b =>
      if b = 0 then (if a = 0 then .nan else if 0 < a then .posInf else .negInf)
      else .num (a / b)
  | .nan, _ => .nan
  | _, .nan => .nan
  | .posInf, .posInf => .nan
  | .posInf, .negInf => .nan
  | .negInf, .posInf => .nan
  | .negInf, .negInf => .nan
  | .posInf, .num b => if 0 ≤ b then .posInf else .negInf
  | .negInf, .num b => if 0 ≤ b then .negInf else .posInf
  | .num _, .posInf => .num 0
  | .num _, .negInf => .num 0

/-- `Math.pow` with a natural exponent, the only shape the engine uses
(`meses` is a positive integer).  `Math.pow(x, 0) = 1` for every `x`,
including `NaN`. -/
def jsPow (x : JSNum) (n : ℕ) : JSNum :=
  match x with
  | .num q => .num (q ^ n)
  | .nan => if n = 0 then .num 1 else .nan
  | .posInf => if n = 0 then .num 1 else .posInf
  | .negInf => if n = 0 then .num 1 else if n % 2 = 1 then .negInf else .posInf

/-- Error that aborts a calculation.  In the source the only such abort is
the uncaught `TypeError` raised when the fetched rate table is missing
(`Object.keys(undefined)`) or has no usable entry (`table[anoFinal].Media`
on an absent year); the specification names this situation
`RateTableUnavailable`. -/
inductive CalcError where
  | rateTableUnavailable
  deriving DecidableEq, Repr

instance {ε α : Type} [DecidableEq ε] [DecidableEq α] :
    DecidableEq (Except ε α) := fun a b =>
  match a, b with
  | .ok x, .ok y =>
      if h : x = y then isTrue (by rw [h])
      else isFalse (by intro he; cases he; exact h rfl)
  | .error x, .error y =>
      if h : x = y then isTrue (by rw [h])
      else isFalse (by intro he; cases he; exact h rfl)
  | .ok _, .error _ => isFalse (by intro h; cases h)
  | .error _, .ok _ => isFalse (by intro h; cases h)

/-- One deduplicated record of the fetched rate table.  Both fetchers
(`fetchIPCARateReal`, lines 17-38, and `fetchCDIRateReal`, lines 40-64)
store the forecast under the field `Media`; there is no field `Medi`. -/
structure RateItem where
  Media : ℚ
  deriving DecidableEq, Repr

/-- Reading the misspelled field `Medi` (source line 343) on a fetched
item: `Medi` is not among the stored fields, so the access evaluates to
`undefined`. -/
def RateItem.mediField (_ : RateItem) : JSVal := .undefinedV

/-- The fetched rate table: calendar year to deduplicated record, as built
by the fetchers. -/
def RateTable : Type := List (ℤ × RateItem)

instance : DecidableEq RateTable := by
  unfold RateTable
  infer_instance

/-- Object property lookup `table[ano]`. -/
def lookupYear (t : RateTable) (ano : ℤ) : Option RateItem :=
  List.lookup ano t

/-- `Math.max(...Object.keys(table).map(Number))` (source lines 297, 331):
the largest year present.  On an empty table the source value is
`-Infinity` and every lookup with it fails; the default value below is
only ever looked up in that already-failing situation, so its choice is
immaterial. -/
def anoFinalOf (t : RateTable) : ℤ :=
  ((t.map Prod.fst).max?).getD 0

/-- Source lines 256-259: `meses = periodo`, times 12 when the period unit
is years. -/
def mesesOf (periodo : ℕ) (periodoAno : Bool) : ℕ :=
  if periodoAno then periodo * 12 else periodo

/-- Source lines 273-274: the nominal percentage rate converted to a
monthly fractional rate — `taxa / 100` when the rate is monthly
(`vencimento === 'meses'`), `taxa / 12 / 100` when it is annual. -/
def covertedTaxa (taxa : ℚ) (vencimentoMeses : Bool) : ℚ :=
  if vencimentoMeses then taxa / 100 else taxa / 12 / 100

/-- The pair stored by `setResult` (lines 290-293, 324-327, 360-363). -/
structure CalcResult where
  montanteBruto : JSNum
  montanteLiquido : JSNum
  deriving DecidableEq, Repr

/-- The tax expression repeated verbatim in all three regime branches
(lines 285-288, 321-322, 357-358):
`isentoDeImposto === 'sim' ? montanteBruto : montanteBruto - rendimento * 0.15`,
on JavaScript numbers. -/
def jsLiquido (montanteBruto rendimento : JSNum) (isento : Bool) : JSNum :=
  if isento then montanteBruto
  else jsSub montanteBruto (jsMul rendimento (.num (15 / 100)))

/-- The same tax expression on finite values (the inflation-indexed branch
performs only additions, multiplications and divisions by the nonzero
literals 12 and 100, so its arithmetic never leaves the rationals). -/
def liquidoQ (montanteBruto rendimento : ℚ) (isento : Bool) : ℚ :=
  if isento then montanteBruto
  else montanteBruto - rendimento * (15 / 100)

/-- The `tipoDeTaxa === 'prefixado'` branch of `calculate`
(source lines 276-293).  Note the absence of any special case for a zero
monthly rate: the expression divides by `covertedTaxa` unconditionally. -/
def calculatePrefixado (aporteInicial aporteMensal taxa : ℚ)
    (vencimentoMeses : Bool) (meses : ℕ) (isento : Bool) : CalcResult :=
  let r := covertedTaxa taxa vencimentoMeses
  let montanteBruto :=
    jsAdd (jsMul (.num aporteInicial) (jsPow (.num (1 + r)) meses))
      (jsMul (.num aporteMensal)
        (jsDiv (jsSub (jsPow (.num (1 + r)) meses) (.num 1)) (.num r)))
  let totalInvestido : ℚ := aporteInicial + aporteMensal * meses
  let rendimento := jsSub montanteBruto (.num totalInvestido)
  { montanteBruto := montanteBruto
    montanteLiquido := jsLiquido montanteBruto rendimento isento }

/-- The calendar year of "today plus `i` months", for a today in calendar
year `startYear` whose zero-based month (`getMonth()`) is `startMonth`.
The source (lines 304-307, 338-341) computes
`futureDate.setMonth(today.getMonth() + i); futureDate.getFullYear()`;
`setMonth` normalises the month modulo 12 into the year, and a day-of-month
overflow can only spill into the next month, never across a year boundary
(the only month from which a spill would change the year is December, which
has 31 days and therefore never overflows).  Hence the year is
`startYear + (startMonth + i) / 12` independently of the day. -/
def anoOf (startYear : ℤ) (startMonth i : ℕ) : ℤ :=
  startYear + ((startMonth + i) / 12 : ℕ)

/-- The iteration space of `for (let i = 1; i <= meses; i++)`: the list
`[1, 2, ..., meses]`, built by appending so that one more month extends the
list on the right, exactly as the loop runs. -/
def monthsList : ℕ → List ℕ
  | 0 => []
  | n + 1 => monthsList n ++ [n + 1]

/-- The per-month table rate of the inflation-indexed branch
(source line 308): `ipcaData[ano]?.Media ?? ipcaData[anoFinal].Media`.
A missing year falls back to the entry of the largest fetched year; if that
entry is missing as well (empty table) the member access throws, which the
specification calls `RateTableUnavailable`. -/
def ipcaRateFor (t : RateTable) (startYear : ℤ) (startMonth i : ℕ) :
    Except CalcError ℚ :=
  match lookupYear t (anoOf startYear startMonth i) with
  | some item => .ok item.Media
  | none =>
      match lookupYear t (anoFinalOf t) with
      | some item => .ok item.Media
      | none => .error .rateTableUnavailable

/-- One iteration of the inflation-indexed loop (source lines 303-317),
acting on the state `(montante, totalInvestido)`. -/
def ipcaStep (t : RateTable) (startYear : ℤ) (startMonth : ℕ)
    (aporteMensal taxaReal : ℚ) (st : ℚ × ℚ) (i : ℕ) :
    Except CalcError (ℚ × ℚ) :=
  match ipcaRateFor t startYear startMonth i with
  | .error e => .error e
  | .ok ipcaAno =>
      let ipcaMes := ipcaAno / 12 / 100
      let taxaEfetiva := (1 + taxaReal) * (1 + ipcaMes) - 1
      .ok ((st.1 + aporteMensal) * (1 + taxaEfetiva), st.2 + aporteMensal)

/-- The inflation-indexed loop over a list of month indices. -/
def ipcaLoop (t : RateTable) (startYear : ℤ) (startMonth : ℕ)
    (aporteMensal taxaReal : ℚ) :
    List ℕ → ℚ × ℚ → Except CalcError (ℚ × ℚ)
  | [], st => .ok st
  | i :: rest, st =>
      match ipcaStep t startYear startMonth aporteMensal taxaReal st i with
      | .ok st' => ipcaLoop t startYear startMonth aporteMensal taxaReal rest st'
      | .error e => .error e

/-- The `tipoDeTaxa === 'ipca+'` branch of `calculate` (source lines
294-327).  The fetched table is `none` when `fetchIPCARateReal` failed (its
`catch` returns `undefined`, and `Object.keys(undefined)` on line 297 then
throws).  The whole branch's arithmetic is additions, multiplications and
divisions by the nonzero literals 12 and 100 on finite inputs, so it is
closed over the rationals and modelled there. -/
def calculateIpca (aporteInicial aporteMensal taxa : ℚ)
    (vencimentoMeses : Bool) (meses : ℕ) (isento : Bool)
    (tableOpt : Option RateTable) (startYear : ℤ) (startMonth : ℕ) :
    Except CalcError CalcResult :=
  match tableOpt with
  | none => .error .rateTableUnavailable
  | some t =>
      let taxaReal := covertedTaxa taxa vencimentoMeses
      match ipcaLoop t startYear startMonth aporteMensal taxaReal
          (monthsList meses) (aporteInicial, aporteInicial) with
      | .error e => .error e
      | .ok (montante, totalInvestido) =>
          let rendimento := montante - totalInvestido
          .ok { montanteBruto := .num montante
                montanteLiquido := .num (liquidoQ montante rendimento isento) }

/-- The per-month rate expression of the benchmark (CDI) branch
(source lines 342-344):
`cdi[ano]?.Media ? cdi[ano]?.Medi * 1.2 : cdi[anoFinal].Media * 1.2`.
When the month's year is present with a truthy (nonzero) `Media`, the code
multiplies the misspelled field `Medi` — which is `undefined` — by 1.2,
yielding `NaN`.  Otherwise it falls back to the largest fetched year, whose
absence (empty table) throws. -/
def cdiRateFor (t : RateTable) (startYear : ℤ) (startMonth i : ℕ) :
    Except CalcError JSNum :=
  match lookupYear t (anoOf startYear startMonth i) with
  | some item =>
      if item.Media ≠ 0 then
        .ok (jsMul item.mediField.toNumber (.num (12 / 10)))
      else
        match lookupYear t (anoFinalOf t) with
        | some fin => .ok (jsMul (.num fin.Media) (.num (12 / 10)))
        | none => .error .rateTableUnavailable
  | none =>
      match lookupYear t (anoFinalOf t) with
      | some fin => .ok (jsMul (.num fin.Media) (.num (12 / 10)))
      | none => .error .rateTableUnavailable

/-- One iteration of the benchmark loop (source lines 337-353) on the state
`(montante : JSNum, totalInvestido : ℚ)`; the running balance is a
JavaScript number because the rate expression can produce `NaN`. -/
def cdiStep (t : RateTable) (startYear : ℤ) (startMonth : ℕ)
    (aporteMensal taxaValue : ℚ) (st : JSNum × ℚ) (i : ℕ) :
    Except CalcError (JSNum × ℚ) :=
  match cdiRateFor t startYear startMonth i with
  | .error e => .error e
  | .ok ipcaAno =>
      let ipcaMes := jsDiv (jsDiv ipcaAno (.num 12)) (.num 100)
      let taxaReal := taxaValue / 100 / 12
      let taxaEfetiva :=
        jsSub (jsMul (.num (1 + taxaReal)) (jsAdd (.num 1) ipcaMes)) (.num 1)
      .ok (jsMul (jsAdd st.1 (.num aporteMensal)) (jsAdd (.num 1) taxaEfetiva),
           st.2 + aporteMensal)

/-- The benchmark loop over a list of month indices. -/
def cdiLoop (t : RateTable) (startYear : ℤ) (startMonth : ℕ)
    (aporteMensal taxaValue : ℚ) :
    List ℕ → JSNum × ℚ → Except CalcError (JSNum × ℚ)
  | [], st => .ok st
  | i :: rest, st =>
      match cdiStep t startYear startMonth aporteMensal taxaValue st i with
      | .ok st' => cdiLoop t startYear startMonth aporteMensal taxaValue rest st'
      | .error e => .error e

/-- The benchmark (`else`, i.e. `tipoDeTaxa === '+CDI'`) branch of
`calculate` (source lines 328-364).  Note that line 347 recomputes
`taxaValue / 100 / 12` directly, ignoring `vencimento`, so the branch takes
the raw parsed `taxa` rather than `covertedTaxa`. -/
def calculateCdi (aporteInicial aporteMensal taxaValue : ℚ) (meses : ℕ)
    (isento : Bool) (tableOpt : Option RateTable) (startYear : ℤ)
    (startMonth : ℕ) : Except CalcError CalcResult :=
  match tableOpt with
  | none => .error .rateTableUnavailable
  | some t =>
      match cdiLoop t startYear startMonth aporteMensal taxaValue
          (monthsList meses) (.num aporteInicial, aporteInicial) with
      | .error e => .error e
      | .ok (montante, totalInvestido) =>
          let rendimento := jsSub montante (.num totalInvestido)
          .ok { montanteBruto := montante
                montanteLiquido := jsLiquido montante rendimento isento }

/-- Checker for the tail `(\.\d{3})*,\d{2}$` of the currency pattern of
`MoneyDataSchema` (source lines 110-121): zero or more groups of a dot and
three digits, then a comma and exactly two digits, then the end. -/
def currencyTailCheck : List Char → Bool
  | [',', a, b] => a.isDigit && b.isDigit
  | '.' :: a :: b :: c :: l => a.isDigit && b.isDigit && c.isDigit && currencyTailCheck l
  | _ => false

/-- The anchored currency pattern `^\d{1,3}(\.\d{3})*,\d{2}$` of
`MoneyDataSchema` (source lines 112-113, 116-117): one to three leading
digits followed by the grouped tail. -/
def matchesCurrency (s : String) : Bool :=
  match s.toList with
  | [] => false
  | d1 :: rest =>
    d1.isDigit &&
      (currencyTailCheck rest ||
        match rest with
        | [] => false
        | d2 :: rest2 =>
          d2.isDigit &&
            (currencyTailCheck rest2 ||
              match rest2 with
              | [] => false
              | d3 :: rest3 => d3.isDigit && currencyTailCheck rest3))

/-- Value of a digit character. -/
def digitVal (c : Char) : ℕ := c.toNat - ('0').toNat

/-- Left-to-right decimal value of a digit string. -/
def digitsVal (l : List Char) : ℕ :=
  l.foldl (fun a c => 10 * a + digitVal c) 0

/-- The currency field parser of `MoneyDataSchema` (source lines 111-121):
the regex gate, then
`Number(val.replace(/\./g, '').replace(',', '.'))`.  On every string the
regex accepts, the cleaned text has the shape `\d+\.\d{2}`, on which
`Number` returns the integer part plus the two-digit fraction over 100.
`none` models the zod `ValidationError` for a rejected string. -/
def parseCurrency (s : String) : Option ℚ :=
  if matchesCurrency s then
    let cleaned := s.toList.filter (fun c => c ≠ '.')
    let intPart := cleaned.takeWhile (fun c => c ≠ ',')
    let fracPart := (cleaned.dropWhile (fun c => c ≠ ',')).drop 1
    some ((digitsVal intPart : ℚ) + (digitsVal fracPart : ℚ) / 100)
  else none

/-- Modelled from the spec: the language of the tail `(\.\d{3})*,\d{2}$`
of the spec's currency regex, as an inductive grammar. -/
inductive CurrencyTail : List Char → Prop
  | base {a b : Char} : a.isDigit → b.isDigit → CurrencyTail [',', a, b]
  | group {a b c : Char} {l : List Char} :
      a.isDigit → b.isDigit → c.isDigit → CurrencyTail l →
      CurrencyTail ('.' :: a :: b :: c :: l)

/-- Modelled from the spec: a string matches `^\d{1,3}(\.\d{3})*,\d{2}$`
iff it splits into one to three leading digits and a grouped tail. -/
def CurrencyLang (s : String) : Prop :=
  ∃ lead rest, s.toList = lead ++ rest ∧ 1 ≤ lead.length ∧ lead.length ≤ 3 ∧
    (∀ c ∈ lead, c.isDigit) ∧ CurrencyTail rest

/-- Modelled from the spec (and claim C4): the rate used for month `i` —
the fetched rate of the calendar year of today plus `i` months, falling
back to the rate of the maximum year present when that year is absent.
The `getD` default is only reachable on an empty table, which the claims
exclude. -/
def specMonthRate (t : RateTable) (startYear : ℤ) (startMonth i : ℕ) : ℚ :=
  match lookupYear t (anoOf startYear startMonth i) with
  | some item => item.Media
  | none => ((lookupYear t (anoFinalOf t)).getD ⟨0⟩).Media

/-- Modelled from the spec (and claim C4): the month-by-month balance
recurrence of the inflation-indexed regime.  `balance 0 = initialDeposit`;
`balance (i+1) = (balance i + monthlyContribution) * (1 + e)` where
`e = (1 + realMonthlyRate) * (1 + tableRate/100/12) - 1` for month
`i + 1`'s table rate. -/
def ipcaSpecBalance (aporteInicial aporteMensal taxaReal : ℚ)
    (t : RateTable) (startYear : ℤ) (startMonth : ℕ) : ℕ → ℚ
  | 0 => aporteInicial
  | i + 1 =>
      (ipcaSpecBalance aporteInicial aporteMensal taxaReal t startYear startMonth i
          + aporteMensal) *
        (1 + ((1 + taxaReal) *
          (1 + specMonthRate t startYear startMonth (i + 1) / 100 / 12) - 1))

/-! ### Basic facts about the embedded JavaScript arithmetic -/

@[simp] lemma jsAdd_num (a b : ℚ) : jsAdd (.num a) (.num b) = .num (a + b) := rfl

@[simp] lemma jsNeg_num (a : ℚ) : jsNeg (.num a) = .num (-a) := rfl

@[simp] lemma jsSub_num (a b : ℚ) : jsSub (.num a) (.num b) = .num (a - b) := by
  simp [jsSub, sub_eq_add_neg]

@[simp] lemma jsMul_num (a b : ℚ) : jsMul (.num a) (.num b) = .num (a * b) := rfl

@[simp] lemma jsPow_num (a : ℚ) (n : ℕ) : jsPow (.num a) n = .num (a ^ n) := rfl

@[simp] lemma jsDiv_num (a b : ℚ) (h : b ≠ 0) :
    jsDiv (.num a) (.num b) = .num (a / b) := by
  simp [jsDiv, h]

@[simp] lemma jsAdd_nan_left (x : JSNum) : jsAdd .nan x = .nan := by
  cases x <;> rfl

@[simp] lemma jsAdd_nan_right (x : JSNum) : jsAdd x .nan = .nan := by
  cases x <;> rfl

@[simp] lemma jsMul_nan_left (x : JSNum) : jsMul .nan x = .nan := by
  cases x <;> rfl

@[simp] lemma jsMul_nan_right (x : JSNum) : jsMul x .nan = .nan := by
  cases x <;> rfl

@[simp] lemma jsSub_nan_left (x : JSNum) : jsSub .nan x = .nan := by
  cases x <;> rfl

@[simp] lemma jsSub_nan_right (x : JSNum) : jsSub x .nan = .nan := by
  cases x <;> rfl

@[simp] lemma jsDiv_nan_left (x : JSNum) : jsDiv .nan x = .nan := by
  cases x <;> rfl

@[simp] lemma jsDiv_nan_right (x : JSNum) : jsDiv x .nan = .nan := by
  cases x <;> rfl

/-- The finite value of the fixed-regime gross amount, as produced by the
source expression (lines 277-280) whenever the monthly rate is nonzero
(`prefixado_montanteBruto_eq` below bridges it to the engine). -/
def brutoPrefixadoQ (aporteInicial aporteMensal r : ℚ) (n : ℕ) : ℚ :=
  aporteInicial * (1 + r) ^ n +
    aporteMensal * (((1 + r) ^ n - 1) / r)

/-- For a nonzero monthly rate the fixed-regime gross amount is the finite
closed-form value. -/
lemma prefixado_montanteBruto_eq (A M taxa : ℚ) (venc : Bool) (n : ℕ)
    (isento : Bool) (h : covertedTaxa taxa venc ≠ 0) :
    (calculatePrefixado A M taxa venc n isento).montanteBruto =
      .num (brutoPrefixadoQ A M (covertedTaxa taxa venc) n) := by
  simp [calculatePrefixado, brutoPrefixadoQ, h]

/-- The geometric-series form of the contribution coefficient. -/
lemma geom_coeff_eq_sum (r : ℚ) (h : r ≠ 0) (n : ℕ) :
    ((1 + r) ^ n - 1) / r = ∑ k ∈ Finset.range n, (1 + r) ^ k := by
  have h1 : (1 + r : ℚ) ≠ 1 := by
    intro hx
    exact h (by linarith)
  rw [geom_sum_eq h1 n]
  have h2 : (1 + r : ℚ) - 1 = r := by ring
  rw [h2]

/-! ### C2 — fixed-regime closed form and end-to-end scenario -/

/-- C2: in the fixed regime with monthly rate `r > 0` the engine returns
`grossAmount = initialDeposit*(1+r)^n + monthlyContribution*(((1+r)^n - 1)/r)`,
and on the scenario `initialDeposit = 1000`, `monthlyContribution = 100`,
annual `nominalRate = 12`, `totalMonths = 12`, `exempt = false` it returns
`grossAmount` within `0.01` of `2395.08` and `netAmount` within `0.01` of
`2365.82`. -/
theorem fixed_closed_form_and_scenario :
    (∀ (A M taxa : ℚ) (venc : Bool) (n : ℕ) (isento : Bool),
        0 < covertedTaxa taxa venc →
        (calculatePrefixado A M taxa venc n isento).montanteBruto =
          .num (A * (1 + covertedTaxa taxa venc) ^ n +
            M * (((1 + covertedTaxa taxa venc) ^ n - 1) / covertedTaxa taxa venc)))
    ∧ (∃ g l : ℚ,
        calculatePrefixado 1000 100 12 false 12 false =
          { montanteBruto := .num g, montanteLiquido := .num l } ∧
        |g - 239508 / 100| ≤ 1 / 100 ∧ |l - 236582 / 100| ≤ 1 / 100) := by
  constructor
  · intro A M taxa venc n isento h
    exact prefixado_montanteBruto_eq A M taxa venc n isento (ne_of_gt h)
  · refine ⟨2395075331451666927273211 / 1000000000000000000000,
      47316280634678337763644587 / 20000000000000000000000, ?_,
      by norm_num [abs_le], by norm_num [abs_le]⟩
    have h : covertedTaxa 12 false ≠ 0 := by norm_num [covertedTaxa]
    simp only [calculatePrefixado, jsPow_num, jsSub_num, jsMul_num,
      jsDiv_num _ _ h, jsAdd_num, jsLiquido, if_neg (by decide : ¬False)]
    norm_num [covertedTaxa, jsLiquido]

/-- Witness for `fixed_closed_form_and_scenario`: the closed form at a
concrete positive rate. -/
theorem fixed_closed_form_witness :
    (calculatePrefixado 1 1 12 false 1 true).montanteBruto =
      .num (1 * (1 + covertedTaxa 12 false) ^ 1 +
        1 * (((1 + covertedTaxa 12 false) ^ 1 - 1) / covertedTaxa 12 false)) :=
  fixed_closed_form_and_scenario.1 1 1 12 false 1 true
    (by norm_num [covertedTaxa])

/-! ### C3 — there is no zero-rate special case -/

/-- C3 counterexample: at a zero nominal rate the claimed exact value
`initialDeposit + monthlyContribution * n = 2200` is not returned; the
gross amount is `NaN`, because `((1+0)^n - 1) / 0 = 0/0`. -/
theorem zero_rate_counterexample :
    (calculatePrefixado 1000 100 0 false 12 true).montanteBruto = JSNum.nan ∧
    (calculatePrefixado 1000 100 0 false 12 true).montanteBruto ≠ .num 2200 := by
  have h : covertedTaxa 0 false = 0 := by norm_num [covertedTaxa]
  constructor <;>
    simp [calculatePrefixado, h, jsDiv]

/-- C3 amended: the source has no special case for a zero monthly rate; for
every input with nominal rate `0` the fixed-regime gross amount is the
non-numeric `NaN` (upstream form validation requires a strictly positive
rate, so the engine never receives this case from the UI). -/
theorem zero_rate_yields_nan (A M : ℚ) (venc : Bool) (n : ℕ) (isento : Bool) :
    (calculatePrefixado A M 0 venc n isento).montanteBruto = JSNum.nan := by
  have h : covertedTaxa 0 venc = 0 := by cases venc <;> norm_num [covertedTaxa]
  simp [calculatePrefixado, h, jsDiv]

/-! ### C8 — monotonicity of the fixed-regime gross amount -/

/-- C8 counterexample: with `initialDeposit = 0` and `totalMonths = 1` the
gross amount does not strictly increase in the rate — the annual nominal
rates 12 and 24 (monthly rates 0.01 < 0.02) give the same gross amount. -/
theorem rate_monotonicity_counterexample :
    covertedTaxa 12 false < covertedTaxa 24 false ∧
    (calculatePrefixado 0 100 12 false 1 true).montanteBruto =
      (calculatePrefixado 0 100 24 false 1 true).montanteBruto := by
  constructor
  · norm_num [covertedTaxa]
  · have h1 : covertedTaxa 12 false ≠ 0 := by norm_num [covertedTaxa]
    have h2 : covertedTaxa 24 false ≠ 0 := by norm_num [covertedTaxa]
    rw [prefixado_montanteBruto_eq _ _ _ _ _ _ h1,
      prefixado_montanteBruto_eq _ _ _ _ _ _ h2]
    norm_num [brutoPrefixadoQ, covertedTaxa]

/-- C8 amended: for monthly rate `r > 0` the fixed-regime gross amount is
strictly increasing in `initialDeposit`, in `monthlyContribution` (for
`n ≥ 1`), and in `totalMonths` (for `initialDeposit ≥ 0`,
`monthlyContribution > 0`); it is strictly increasing in `r` provided
additionally `initialDeposit > 0` or `totalMonths ≥ 2` (at
`initialDeposit = 0`, `totalMonths = 1` it is constant in `r`).  The first
conjunct bridges the rational closed form to the engine. -/
theorem fixed_monotonicity :
    (∀ (A M taxa : ℚ) (venc : Bool) (n : ℕ) (isento : Bool),
        covertedTaxa taxa venc ≠ 0 →
        (calculatePrefixado A M taxa venc n isento).montanteBruto =
          .num (brutoPrefixadoQ A M (covertedTaxa taxa venc) n))
    ∧ (∀ (A A' M r : ℚ) (n : ℕ), 0 < r → A < A' →
        brutoPrefixadoQ A M r n < brutoPrefixadoQ A' M r n)
    ∧ (∀ (A M M' r : ℚ) (n : ℕ), 0 < r → 1 ≤ n → M < M' →
        brutoPrefixadoQ A M r n < brutoPrefixadoQ A M' r n)
    ∧ (∀ (A M r : ℚ) (m n : ℕ), 0 ≤ A → 0 < M → 0 < r → m < n →
        brutoPrefixadoQ A M r m < brutoPrefixadoQ A M r n)
    ∧ (∀ (A M r r' : ℚ) (n : ℕ), 0 ≤ A → 0 < M → 0 < r → r < r' → 1 ≤ n →
        (0 < A ∨ 2 ≤ n) →
        brutoPrefixadoQ A M r n < brutoPrefixadoQ A M r' n) := by
  refine ⟨?_, ?_, ?_, ?_, ?_⟩
  · intro A M taxa venc n isento h
    exact prefixado_montanteBruto_eq A M taxa venc n isento h
  · intro A A' M r n hr hA
    unfold brutoPrefixadoQ
    have hp : (0 : ℚ) < (1 + r) ^ n := pow_pos (by linarith) n
    have := mul_lt_mul_of_pos_right hA hp
    linarith
  · intro A M M' r n hr hn hM
    unfold brutoPrefixadoQ
    rw [geom_coeff_eq_sum r (ne_of_gt hr) n]
    have hS : (0 : ℚ) < ∑ k ∈ Finset.range n, (1 + r) ^ k := by
      apply Finset.sum_pos
      · intro k _
        exact pow_pos (by linarith) k
      · exact Finset.nonempty_range_iff.mpr (by omega)
    have := mul_lt_mul_of_pos_right hM hS
    linarith
  · intro A M r m n hA hM hr hmn
    unfold brutoPrefixadoQ
    rw [geom_coeff_eq_sum r (ne_of_gt hr) m, geom_coeff_eq_sum r (ne_of_gt hr) n]
    have h1 : (1 + r : ℚ) ^ m ≤ (1 + r) ^ n :=
      pow_le_pow_right₀ (by linarith) (le_of_lt hmn)
    have hA' : A * (1 + r) ^ m ≤ A * (1 + r) ^ n :=
      mul_le_mul_of_nonneg_left h1 hA
    have hS : (∑ k ∈ Finset.range m, (1 + r) ^ k) <
        ∑ k ∈ Finset.range n, (1 + r) ^ k := by
      apply Finset.sum_lt_sum_of_subset
        (Finset.range_subset.mpr (le_of_lt hmn))
        (Finset.mem_range.mpr hmn) (by simp) (pow_pos (by linarith) m)
      intro k _ _
      exact le_of_lt (pow_pos (by linarith) k)
    have := mul_lt_mul_of_pos_left hS hM
    linarith
  · intro A M r r' n hA hM hr hrr hn hcase
    unfold brutoPrefixadoQ
    rw [geom_coeff_eq_sum r (ne_of_gt hr) n,
      geom_coeff_eq_sum r' (by linarith) n]
    have hSle : (∑ k ∈ Finset.range n, (1 + r) ^ k) ≤
        ∑ k ∈ Finset.range n, (1 + r') ^ k := by
      apply Finset.sum_le_sum
      intro k _
      exact pow_le_pow_left₀ (by linarith) (by linarith) k
    have hple : (1 + r : ℚ) ^ n ≤ (1 + r') ^ n :=
      pow_le_pow_left₀ (by linarith) (by linarith) n
    rcases hcase with hApos | hn2
    · have hplt : (1 + r : ℚ) ^ n < (1 + r') ^ n :=
        pow_lt_pow_left₀ (by linarith) (by linarith) (by omega)
      have h1 : A * (1 + r) ^ n < A * (1 + r') ^ n :=
        mul_lt_mul_of_pos_left hplt hApos
      have h2 : M * (∑ k ∈ Finset.range n, (1 + r) ^ k) ≤
          M * (∑ k ∈ Finset.range n, (1 + r') ^ k) :=
        mul_le_mul_of_nonneg_left hSle (le_of_lt hM)
      linarith
    · have hSlt : (∑ k ∈ Finset.range n, (1 + r) ^ k) <
          ∑ k ∈ Finset.range n, (1 + r') ^ k := by
        apply Finset.sum_lt_sum
        · intro k _
          exact pow_le_pow_left₀ (by linarith) (by linarith) k
        · refine ⟨1, Finset.mem_range.mpr (by omega), ?_⟩
          simpa using (by linarith : (1 + r : ℚ) < 1 + r')
      have h1 : A * (1 + r) ^ n ≤ A * (1 + r') ^ n :=
        mul_le_mul_of_nonneg_left hple hA
      have h2 : M * (∑ k ∈ Finset.range n, (1 + r) ^ k) <
          M * (∑ k ∈ Finset.range n, (1 + r') ^ k) :=
        mul_lt_mul_of_pos_left hSlt hM
      linarith

/-- Witness for `fixed_monotonicity`: strict monotonicity in the initial
deposit at concrete inputs. -/
theorem fixed_monotonicity_witness :
    brutoPrefixadoQ 0 100 (1 / 100) 1 < brutoPrefixadoQ 1 100 (1 / 100) 1 :=
  fixed_monotonicity.2.1 0 1 100 (1 / 100) 1 (by norm_num) (by norm_num)

/-! ### C1 — there is no net-le-gross post-condition check -/

attribute [local semireducible] Rat.add Rat.mul Rat.sub Rat.inv in
/-- C1 counterexample: an inflation-indexed calculation with a negative
fetched rate (rate −600, i.e. a monthly index factor of one half) yields a
loss; the engine then returns a result with `netAmount > grossAmount`
(555.5 gross, 637.175 net) instead of failing with a consistency error. -/
theorem aggregation_counterexample :
    calculateIpca 1000 100 12 false 1 false (some [((2100 : ℤ), ⟨-600⟩)]) 2025 0 =
      .ok { montanteBruto := .num (1111 / 2), montanteLiquido := .num (25487 / 40) } ∧
    (1111 : ℚ) / 2 < 25487 / 40 := by
  constructor
  · decide
  · norm_num

/-- C1 amended: the engine performs no aggregation check at all.  The tax
step keeps `netAmount ≤ grossAmount` whenever the realized gain is
non-negative, but on a negative gain without exemption it returns
`netAmount > grossAmount` silently (no error, no clamping). -/
theorem tax_net_gross_ordering :
    ∀ (b g : ℚ) (isento : Bool),
      (0 ≤ g → liquidoQ b g isento ≤ b) ∧ (g < 0 → b < liquidoQ b g false) := by
  intro b g isento
  constructor
  · intro hg
    cases isento
    · simp only [liquidoQ, Bool.false_eq_true, if_false]
      nlinarith
    · simp [liquidoQ]
  · intro hg
    simp only [liquidoQ, if_neg (by simp : ¬(false = true))]
    nlinarith

/-- Witness for `tax_net_gross_ordering` at concrete inputs. -/
theorem tax_net_gross_ordering_witness :
    liquidoQ 1 1 false ≤ 1 ∧ (1 : ℚ) < liquidoQ 1 (-1) false :=
  ⟨(tax_net_gross_ordering 1 1 false).1 (by norm_num),
    (tax_net_gross_ordering 1 (-1) false).2 (by norm_num)⟩

/-! ### C5 — flat 15% withholding on the gain, identity under exemption -/

/-- C5: in every regime the tax step returns the gross amount unchanged
when exempt, and `gross - gain * 0.15` when not exempt; the three regime
branches all produce their net amount through exactly this expression. -/
theorem applyTax_flat_withholding :
    (∀ b g : ℚ, liquidoQ b g true = b ∧
        liquidoQ b g false = b - g * (15 / 100) ∧
        jsLiquido (.num b) (.num g) true = .num b ∧
        jsLiquido (.num b) (.num g) false = .num (b - g * (15 / 100)))
    ∧ (∀ (A M taxa : ℚ) (venc : Bool) (n : ℕ),
        (calculatePrefixado A M taxa venc n true).montanteLiquido =
          (calculatePrefixado A M taxa venc n true).montanteBruto)
    ∧ (∀ (A M taxa : ℚ) (venc : Bool) (n : ℕ) (tOpt : Option RateTable)
        (sy : ℤ) (sm : ℕ),
        (calculateIpca A M taxa venc n true tOpt sy sm).map
            (fun x => x.montanteLiquido) =
          (calculateIpca A M taxa venc n true tOpt sy sm).map
            (fun x => x.montanteBruto))
    ∧ (∀ (A M tv : ℚ) (n : ℕ) (tOpt : Option RateTable) (sy : ℤ) (sm : ℕ),
        (calculateCdi A M tv n true tOpt sy sm).map
            (fun x => x.montanteLiquido) =
          (calculateCdi A M tv n true tOpt sy sm).map
            (fun x => x.montanteBruto)) := by
  refine ⟨?_, ?_, ?_, ?_⟩
  · intro b g
    refine ⟨rfl, rfl, rfl, ?_⟩
    simp [jsLiquido]
  · intro A M taxa venc n
    simp [calculatePrefixado, jsLiquido]
  · intro A M taxa venc n tOpt sy sm
    cases tOpt with
    | none => rfl
    | some t =>
        simp only [calculateIpca]
        cases ipcaLoop t sy sm M (covertedTaxa taxa venc)
            (monthsList n) (A, A) with
        | error e => rfl
        | ok st => simp [liquidoQ, Except.map]
  · intro A M tv n tOpt sy sm
    cases tOpt with
    | none => rfl
    | some t =>
        simp only [calculateCdi]
        cases cdiLoop t sy sm M tv (monthsList n) (.num A, A) with
        | error e => rfl
        | ok st => simp [jsLiquido, Except.map]

/-! ### C10 — the exemption flag cannot influence the gross amount -/

/-- C10: for each regime and identical remaining inputs (including the
fetched table), runs that differ only in the exemption flag produce the
same gross amount; only the net amount can differ. -/
theorem exempt_flag_noninterference_with_gross :
    (∀ (A M taxa : ℚ) (venc : Bool) (n : ℕ) (e1 e2 : Bool),
        (calculatePrefixado A M taxa venc n e1).montanteBruto =
          (calculatePrefixado A M taxa venc n e2).montanteBruto)
    ∧ (∀ (A M taxa : ℚ) (venc : Bool) (n : ℕ) (e1 e2 : Bool)
        (tOpt : Option RateTable) (sy : ℤ) (sm : ℕ),
        (calculateIpca A M taxa venc n e1 tOpt sy sm).map
            (fun x => x.montanteBruto) =
          (calculateIpca A M taxa venc n e2 tOpt sy sm).map
            (fun x => x.montanteBruto))
    ∧ (∀ (A M tv : ℚ) (n : ℕ) (e1 e2 : Bool) (tOpt : Option RateTable)
        (sy : ℤ) (sm : ℕ),
        (calculateCdi A M tv n e1 tOpt sy sm).map
            (fun x => x.montanteBruto) =
          (calculateCdi A M tv n e2 tOpt sy sm).map
            (fun x => x.montanteBruto)) := by
  refine ⟨?_, ?_, ?_⟩
  · intro A M taxa venc n e1 e2
    rfl
  · intro A M taxa venc n e1 e2 tOpt sy sm
    cases tOpt with
    | none => rfl
    | some t =>
        simp only [calculateIpca]
        cases ipcaLoop t sy sm M (covertedTaxa taxa venc)
            (monthsList n) (A, A) with
        | error e => rfl
        | ok st => rfl
  · intro A M tv n e1 e2 tOpt sy sm
    cases tOpt with
    | none => rfl
    | some t =>
        simp only [calculateCdi]
        cases cdiLoop t sy sm M tv (monthsList n) (.num A, A) with
        | error e => rfl
        | ok st => rfl

/-! ### C6 — unavailable or empty rate table aborts the calculation -/

/-- The month list of a positive number of months is nonempty. -/
lemma monthsList_ne_nil (n : ℕ) (h : 1 ≤ n) : monthsList n ≠ [] := by
  cases n with
  | zero => omega
  | succ k =>
      intro he
      have := congrArg List.length he
      simp [monthsList] at this

/-- On the empty table every inflation-indexed iteration fails. -/
lemma ipcaLoop_empty_table (sy : ℤ) (sm : ℕ) (M tr : ℚ) (l : List ℕ)
    (st : ℚ × ℚ) (h : l ≠ []) :
    ipcaLoop ([] : RateTable) sy sm M tr l st = .error .rateTableUnavailable := by
  cases l with
  | nil => exact absurd rfl h
  | cons i rest => rfl

/-- On the empty table every benchmark iteration fails. -/
lemma cdiLoop_empty_table (sy : ℤ) (sm : ℕ) (M tv : ℚ) (l : List ℕ)
    (st : JSNum × ℚ) (h : l ≠ []) :
    cdiLoop ([] : RateTable) sy sm M tv l st = .error .rateTableUnavailable := by
  cases l with
  | nil => exact absurd rfl h
  | cons i rest => rfl

/-- C6: for an indexed regime, a failed fetch (no table) or a fetched table
with no entries makes the calculation fail with `RateTableUnavailable`: an
error is returned to the caller and no result — partial or otherwise — is
produced. -/
theorem rate_table_unavailable_aborts :
    ∀ (A M taxa tv : ℚ) (venc : Bool) (n : ℕ) (isento : Bool) (sy : ℤ) (sm : ℕ),
      calculateIpca A M taxa venc n isento none sy sm =
          .error .rateTableUnavailable
      ∧ (1 ≤ n → calculateIpca A M taxa venc n isento (some []) sy sm =
          .error .rateTableUnavailable)
      ∧ calculateCdi A M tv n isento none sy sm = .error .rateTableUnavailable
      ∧ (1 ≤ n → calculateCdi A M tv n isento (some []) sy sm =
          .error .rateTableUnavailable) := by
  intro A M taxa tv venc n isento sy sm
  refine ⟨rfl, ?_, rfl, ?_⟩
  · intro hn
    simp only [calculateIpca]
    rw [ipcaLoop_empty_table sy sm M (covertedTaxa taxa venc) (monthsList n)
      (A, A) (monthsList_ne_nil n hn)]
  · intro hn
    simp only [calculateCdi]
    rw [cdiLoop_empty_table sy sm M tv (monthsList n) (.num A, A)
      (monthsList_ne_nil n hn)]

/-- Witness for `rate_table_unavailable_aborts` at one month. -/
theorem rate_table_unavailable_witness :
    calculateIpca 1000 100 12 false 1 false (some []) 2025 0 =
      .error .rateTableUnavailable ∧
    calculateCdi 1000 100 12 1 false (some []) 2025 0 =
      .error .rateTableUnavailable :=
  ⟨(rate_table_unavailable_aborts 1000 100 12 12 false 1 false 2025 0).2.1
      (le_refl 1),
    (rate_table_unavailable_aborts 1000 100 12 12 false 1 false 2025 0).2.2.2
      (le_refl 1)⟩

/-! ### C4 — the inflation-indexed loop follows the specified recurrence -/

/-- A left fold of `max` is the seed or one of the list elements. -/
lemma foldl_max_self_or_mem (l : List ℤ) :
    ∀ a : ℤ, l.foldl max a = a ∨ l.foldl max a ∈ l := by
  induction l with
  | nil => intro a; exact Or.inl rfl
  | cons b t ih =>
      intro a
      rw [List.foldl_cons]
      rcases ih (max a b) with h | h
      · rw [h]
        rcases max_choice a b with h' | h'
        · exact Or.inl h'
        · exact Or.inr (by rw [h']; exact List.mem_cons_self b t)
      · exact Or.inr (List.mem_cons_of_mem b h)

/-- On a nonempty table the largest fetched year is one of the keys. -/
lemma anoFinal_mem_keys (t : RateTable) (h : t ≠ []) :
    anoFinalOf t ∈ t.map Prod.fst := by
  unfold anoFinalOf
  cases hk : t.map Prod.fst with
  | nil =>
      exact absurd (List.map_eq_nil_iff.mp hk) h
  | cons k ks =>
      show (((k :: ks).max?).getD 0) ∈ k :: ks
      rcases foldl_max_self_or_mem ks k with h' | h'
      · rw [show ((k :: ks).max?).getD 0 = ks.foldl max k from rfl, h']
        exact List.mem_cons_self k ks
      · rw [show ((k :: ks).max?).getD 0 = ks.foldl max k from rfl]
        exact List.mem_cons_of_mem k h'

/-- A key appearing in the key list can be looked up. -/
lemma lookup_of_mem_keys :
    ∀ (t : RateTable) (k : ℤ), k ∈ t.map Prod.fst →
      ∃ it, lookupYear t k = some it := by
  intro t
  induction t with
  | nil => intro k h; simp at h
  | cons p rest ih =>
      intro k h
      obtain ⟨k', v⟩ := p
      by_cases hk : k = k'
      · exact ⟨v, by simp [lookupYear, List.lookup, hk]⟩
      · have hmem : k ∈ rest.map Prod.fst := by
          simp only [List.map_cons, List.mem_cons] at h
          exact h.resolve_left hk
        obtain ⟨it, hit⟩ := ih k hmem
        refine ⟨it, ?_⟩
        simpa [lookupYear, List.lookup, beq_eq_false_iff_ne.mpr hk] using hit

/-- On a nonempty table the per-month rate of the inflation-indexed branch
never fails and equals the specified lookup-with-fallback rate. -/
lemma ipcaRateFor_eq_spec (t : RateTable) (h : t ≠ []) (sy : ℤ) (sm i : ℕ) :
    ipcaRateFor t sy sm i = .ok (specMonthRate t sy sm i) := by
  unfold ipcaRateFor specMonthRate
  cases hl : lookupYear t (anoOf sy sm i) with
  | some item => rfl
  | none =>
      obtain ⟨it, hit⟩ := lookup_of_mem_keys t (anoFinalOf t) (anoFinal_mem_keys t h)
      rw [hit]
      rfl

/-- The loop distributes over list concatenation. -/
lemma ipcaLoop_append (t : RateTable) (sy : ℤ) (sm : ℕ) (M tr : ℚ)
    (l1 l2 : List ℕ) (st : ℚ × ℚ) :
    ipcaLoop t sy sm M tr (l1 ++ l2) st =
      match ipcaLoop t sy sm M tr l1 st with
      | .ok st' => ipcaLoop t sy sm M tr l2 st'
      | .error e => .error e := by
  induction l1 generalizing st with
  | nil => rfl
  | cons i rest ih =>
      simp only [List.cons_append, ipcaLoop]
      cases ipcaStep t sy sm M tr st i with
      | ok st' => exact ih st'
      | error e => rfl

/-- On a nonempty table the inflation-indexed loop computes exactly the
specified balance recurrence, with `totalInvested = A + M * n`. -/
lemma ipcaLoop_eq_spec (t : RateTable) (h : t ≠ []) (sy : ℤ) (sm : ℕ)
    (A M tr : ℚ) :
    ∀ n : ℕ, ipcaLoop t sy sm M tr (monthsList n) (A, A) =
      .ok (ipcaSpecBalance A M tr t sy sm n, A + M * n) := by
  intro n
  induction n with
  | zero => simp [monthsList, ipcaLoop, ipcaSpecBalance]
  | succ k ih =>
      rw [show monthsList (k + 1) = monthsList k ++ [k + 1] from rfl,
        ipcaLoop_append, ih]
      show ipcaLoop t sy sm M tr [k + 1]
          (ipcaSpecBalance A M tr t sy sm k, A + M * k) = _
      simp only [ipcaLoop, ipcaStep, ipcaRateFor_eq_spec t h sy sm (k + 1)]
      simp only [ipcaSpecBalance, Except.ok.injEq, Prod.mk.injEq]
      constructor
      · ring
      · push_cast
        ring

/-- C4: for a nonempty fetched inflation table the engine's gross amount is
the month-by-month compounded balance: starting from the initial deposit,
each month adds the contribution and applies
`(1 + realMonthlyRate) * (1 + tableRate/100/12) - 1`, where the table rate
is that of the calendar year of today plus `i` months, falling back to the
largest fetched year when absent. -/
theorem ipca_month_simulation :
    ∀ (A M taxa : ℚ) (venc : Bool) (n : ℕ) (isento : Bool) (t : RateTable)
      (sy : ℤ) (sm : ℕ), t ≠ [] →
      (calculateIpca A M taxa venc n isento (some t) sy sm).map
          (fun x => x.montanteBruto) =
        .ok (.num (ipcaSpecBalance A M (covertedTaxa taxa venc) t sy sm n)) := by
  intro A M taxa venc n isento t sy sm h
  simp only [calculateIpca]
  rw [ipcaLoop_eq_spec t h sy sm A M (covertedTaxa taxa venc) n]
  rfl

/-- Witness for `ipca_month_simulation` on a one-entry table and one
month. -/
theorem ipca_month_simulation_witness :
    (calculateIpca 1000 100 12 false 1 false (some [((2026 : ℤ), ⟨6⟩)]) 2025 11).map
        (fun x => x.montanteBruto) =
      .ok (.num (ipcaSpecBalance 1000 100 (covertedTaxa 12 false)
        [((2026 : ℤ), ⟨6⟩)] 2025 11 1)) :=
  ipca_month_simulation 1000 100 12 false 1 false [((2026 : ℤ), ⟨6⟩)] 2025 11
    (List.cons_ne_nil _ _)

/-! ### C9 — the benchmark branch reads `Medi` and floods the run with NaN -/

/-- A successful lookup needs a nonempty table. -/
lemma lookup_ne_nil (t : RateTable) (k : ℤ) (it : RateItem)
    (h : lookupYear t k = some it) : t ≠ [] := by
  intro he
  rw [he] at h
  simp [lookupYear, List.lookup] at h

/-- On a nonempty table the benchmark per-month rate expression never
fails. -/
lemma cdiRateFor_ok (t : RateTable) (h : t ≠ []) (sy : ℤ) (sm i : ℕ) :
    ∃ x, cdiRateFor t sy sm i = .ok x := by
  obtain ⟨fin, hfin⟩ :=
    lookup_of_mem_keys t (anoFinalOf t) (anoFinal_mem_keys t h)
  unfold cdiRateFor
  cases hl : lookupYear t (anoOf sy sm i) with
  | some item =>
      by_cases hm : item.Media = 0
      · rw [hfin]
        simp [hm]
      · simp [hm]
  | none =>
      rw [hfin]
      exact ⟨_, rfl⟩

/-- When the month's year is present with a nonzero (truthy) rate, the
benchmark rate expression multiplies the undefined `Medi` field and yields
`NaN`. -/
lemma cdiRateFor_covered (t : RateTable) (sy : ℤ) (sm i : ℕ) (it : RateItem)
    (hl : lookupYear t (anoOf sy sm i) = some it) (hm : it.Media ≠ 0) :
    cdiRateFor t sy sm i = .ok JSNum.nan := by
  unfold cdiRateFor
  rw [hl]
  simp [hm, RateItem.mediField, JSVal.toNumber]

/-- One benchmark step whose rate expression succeeds with `NaN` turns the
running balance into `NaN`. -/
lemma cdiStep_covered (t : RateTable) (sy : ℤ) (sm : ℕ) (M tv : ℚ)
    (st : JSNum × ℚ) (i : ℕ)
    (hr : cdiRateFor t sy sm i = .ok JSNum.nan) :
    cdiStep t sy sm M tv st i = .ok (JSNum.nan, st.2 + M) := by
  simp [cdiStep, hr]

/-- A benchmark step keeps a `NaN` balance `NaN` whenever its rate
expression succeeds. -/
lemma cdiStep_nan (t : RateTable) (sy : ℤ) (sm : ℕ) (M tv : ℚ) (inv : ℚ)
    (i : ℕ) (x : JSNum) (hr : cdiRateFor t sy sm i = .ok x) :
    cdiStep t sy sm M tv (JSNum.nan, inv) i = .ok (JSNum.nan, inv + M) := by
  simp [cdiStep, hr]

/-- On a nonempty table the benchmark loop never fails. -/
lemma cdiLoop_ok (t : RateTable) (h : t ≠ []) (sy : ℤ) (sm : ℕ) (M tv : ℚ) :
    ∀ (l : List ℕ) (st : JSNum × ℚ),
      ∃ st', cdiLoop t sy sm M tv l st = .ok st' := by
  intro l
  induction l with
  | nil => intro st; exact ⟨st, rfl⟩
  | cons i rest ih =>
      intro st
      obtain ⟨x, hx⟩ := cdiRateFor_ok t h sy sm i
      have hstep : ∃ st1, cdiStep t sy sm M tv st i = .ok st1 := by
        simp [cdiStep, hx]
      obtain ⟨st1, hst1⟩ := hstep
      obtain ⟨st', hst'⟩ := ih st1
      exact ⟨st', by simp [cdiLoop, hst1, hst']⟩

/-- On a nonempty table a `NaN` balance persists to the end of the
benchmark loop. -/
lemma cdiLoop_nan (t : RateTable) (h : t ≠ []) (sy : ℤ) (sm : ℕ) (M tv : ℚ) :
    ∀ (l : List ℕ) (inv : ℚ),
      ∃ inv', cdiLoop t sy sm M tv l (JSNum.nan, inv) = .ok (JSNum.nan, inv') := by
  intro l
  induction l with
  | nil => intro inv; exact ⟨inv, rfl⟩
  | cons i rest ih =>
      intro inv
      obtain ⟨x, hx⟩ := cdiRateFor_ok t h sy sm i
      obtain ⟨inv', hinv'⟩ := ih (inv + M)
      refine ⟨inv', ?_⟩
      simp [cdiLoop, cdiStep_nan t sy sm M tv inv i x hx, hinv']

/-- The benchmark loop distributes over list concatenation. -/
lemma cdiLoop_append (t : RateTable) (sy : ℤ) (sm : ℕ) (M tv : ℚ)
    (l1 l2 : List ℕ) (st : JSNum × ℚ) :
    cdiLoop t sy sm M tv (l1 ++ l2) st =
      match cdiLoop t sy sm M tv l1 st with
      | .ok st' => cdiLoop t sy sm M tv l2 st'
      | .error e => .error e := by
  induction l1 generalizing st with
  | nil => rfl
  | cons i rest ih =>
      simp only [List.cons_append, cdiLoop]
      cases cdiStep t sy sm M tv st i with
      | ok st' => exact ih st'
      | error e => rfl

/-- The month list splits at any month `i` between 1 and `n`. -/
lemma monthsList_decomp :
    ∀ (n i : ℕ), 1 ≤ i → i ≤ n →
      ∃ suf, monthsList n = monthsList (i - 1) ++ i :: suf := by
  intro n
  induction n with
  | zero => intro i h1 h2; omega
  | succ k ih =>
      intro i h1 h2
      by_cases hik : i = k + 1
      · refine ⟨[], ?_⟩
        subst hik
        simp [monthsList]
      · obtain ⟨suf, hsuf⟩ := ih i h1 (by omega)
        refine ⟨suf ++ [k + 1], ?_⟩
        show monthsList k ++ [k + 1] = _
        rw [hsuf, List.append_assoc, List.cons_append]

attribute [local semireducible] Rat.add Rat.mul Rat.sub Rat.inv in
/-- C9 counterexample: a month's calendar year present in the table with
rate 0 is falsy, so the code takes the numeric fallback instead of the
`Medi` path, and the calculation produces a fully numeric result even
though the simulated month falls in a covered year. -/
theorem cdi_zero_media_counterexample :
    lookupYear [((2026 : ℤ), ⟨0⟩)] (anoOf 2025 11 1) = some ⟨0⟩ ∧
    calculateCdi 1000 100 1200 1 true (some [((2026 : ℤ), ⟨0⟩)]) 2025 11 =
      .ok { montanteBruto := .num 2200, montanteLiquido := .num 2200 } := by
  constructor
  · decide
  · decide

/-- C9 amended: whenever some simulated month's calendar year is present in
the fetched benchmark table with a nonzero (truthy) `Media`, the engine
reads the misspelled, undefined field `Medi`, multiplies it by 1.2 into
`NaN`, and the `NaN` floods every later balance: the calculation returns
`NaN` for both gross and net amounts.  (A covered year whose rate is
exactly 0 instead takes the numeric fallback — see the counterexample.) -/
theorem cdi_covered_year_nan :
    ∀ (A M tv : ℚ) (n : ℕ) (isento : Bool) (t : RateTable) (sy : ℤ)
      (sm i : ℕ) (it : RateItem),
      1 ≤ i → i ≤ n → lookupYear t (anoOf sy sm i) = some it →
      it.Media ≠ 0 →
      calculateCdi A M tv n isento (some t) sy sm =
        .ok { montanteBruto := JSNum.nan, montanteLiquido := JSNum.nan } := by
  intro A M tv n isento t sy sm i it h1 h2 hl hm
  have ht : t ≠ [] := lookup_ne_nil t _ it hl
  obtain ⟨suf, hsuf⟩ := monthsList_decomp n i h1 h2
  simp only [calculateCdi, hsuf, cdiLoop_append]
  obtain ⟨st', hst'⟩ := cdiLoop_ok t ht sy sm M tv (monthsList (i - 1)) (.num A, A)
  rw [hst']
  have hrate : cdiRateFor t sy sm i = .ok JSNum.nan :=
    cdiRateFor_covered t sy sm i it hl hm
  have hstep : cdiStep t sy sm M tv st' i = .ok (JSNum.nan, st'.2 + M) :=
    cdiStep_covered t sy sm M tv st' i hrate
  obtain ⟨inv', hinv'⟩ := cdiLoop_nan t ht sy sm M tv suf (st'.2 + M)
  simp only [cdiLoop, hstep, hinv']
  cases isento <;> simp [jsLiquido]

/-- Witness for `cdi_covered_year_nan` on a one-entry table whose single
year covers the single simulated month. -/
theorem cdi_covered_year_nan_witness :
    calculateCdi 1000 100 0 1 false (some [((2026 : ℤ), ⟨4⟩)]) 2025 11 =
      .ok { montanteBruto := JSNum.nan, montanteLiquido := JSNum.nan } :=
  cdi_covered_year_nan 1000 100 0 1 false [((2026 : ℤ), ⟨4⟩)] 2025 11 1 ⟨4⟩
    (le_refl 1) (le_refl 1) (by decide) (by norm_num)

/-! ### C7 — the currency parser accepts exactly the specified language -/

/-- The executable tail checker recognises exactly the tail grammar. -/
lemma currencyTailCheck_iff :
    ∀ l : List Char, currencyTailCheck l = true ↔ CurrencyTail l := by
  intro l
  induction l using currencyTailCheck.induct with
  | case1 a b =>
      simp only [currencyTailCheck, Bool.and_eq_true]
      constructor
      · rintro ⟨ha, hb⟩
        exact CurrencyTail.base ha hb
      · intro h
        cases h with
        | base ha hb => exact ⟨ha, hb⟩
  | case2 a b c rest ih =>
      simp only [currencyTailCheck, Bool.and_eq_true, and_assoc]
      constructor
      · rintro ⟨ha, hb, hc, hrest⟩
        exact CurrencyTail.group ha hb hc (ih.mp hrest)
      · intro h
        cases h with
        | group ha hb hc htail => exact ⟨ha, hb, hc, ih.mpr htail⟩
  | case3 t h1 h2 =>
      constructor
      · intro h
        rw [currencyTailCheck.eq_def] at h
        split at h
        · exact (h1 _ _ rfl).elim
        · exact (h2 _ _ _ _ rfl).elim
        · exact absurd h (by simp)
      · intro h
        cases h with
        | base ha hb => exact (h1 _ _ rfl).elim
        | group ha hb hc htail => exact (h2 _ _ _ _ rfl).elim

/-- The full matcher recognises exactly the spec's anchored currency
language. -/
lemma matchesCurrency_iff (s : String) :
    matchesCurrency s = true ↔ CurrencyLang s := by
  unfold matchesCurrency CurrencyLang
  cases hs : s.toList with
  | nil =>
      constructor
      · intro h
        cases h
      · rintro ⟨lead, rest, heq, hlen1, hlen3, hdig, htail⟩
        have := congrArg List.length heq
        simp at this
        omega
  | cons d1 rest =>
      constructor
      · intro h
        rw [Bool.and_eq_true, Bool.or_eq_true] at h
        obtain ⟨hd1, h⟩ := h
        rcases h with h | h
        · exact ⟨[d1], rest, rfl, by simp, by simp, by
            intro c hc
            rw [List.mem_singleton] at hc
            rw [hc]
            exact hd1, (currencyTailCheck_iff rest).mp h⟩
        · cases rest with
          | nil => cases h
          | cons d2 rest2 =>
              rw [Bool.and_eq_true, Bool.or_eq_true] at h
              obtain ⟨hd2, h⟩ := h
              rcases h with h | h
              · exact ⟨[d1, d2], rest2, rfl, by simp, by simp, by
                  intro c hc
                  rcases List.mem_pair.mp hc with hc | hc <;> rw [hc] <;>
                    assumption, (currencyTailCheck_iff rest2).mp h⟩
              · cases rest2 with
                | nil => cases h
                | cons d3 rest3 =>
                    rw [Bool.and_eq_true] at h
                    obtain ⟨hd3, h⟩ := h
                    refine ⟨[d1, d2, d3], rest3, rfl, by simp, by simp, ?_,
                      (currencyTailCheck_iff rest3).mp h⟩
                    intro c hc
                    simp only [List.mem_cons, List.mem_singleton,
                      List.not_mem_nil, or_false] at hc
                    rcases hc with hc | hc | hc <;> rw [hc] <;> assumption
      · rintro ⟨lead, rest', heq, hlen1, hlen3, hdig, htail⟩
        rcases lead with _ | ⟨a, lead⟩
        · simp at hlen1
        rcases lead with _ | ⟨b, lead⟩
        · -- lead = [a]
          simp only [List.cons_append, List.nil_append] at heq
          cases heq
          rw [Bool.and_eq_true, Bool.or_eq_true]
          exact ⟨hdig d1 (by simp), Or.inl ((currencyTailCheck_iff _).mpr htail)⟩
        rcases lead with _ | ⟨c, lead⟩
        · -- lead = [a, b]
          simp only [List.cons_append, List.nil_append] at heq
          cases heq
          rw [Bool.and_eq_true, Bool.or_eq_true]
          refine ⟨hdig d1 (by simp), Or.inr ?_⟩
          rw [Bool.and_eq_true, Bool.or_eq_true]
          exact ⟨hdig b (by simp), Or.inl ((currencyTailCheck_iff _).mpr htail)⟩
        rcases lead with _ | ⟨d, lead⟩
        · -- lead = [a, b, c]
          simp only [List.cons_append, List.nil_append] at heq
          cases heq
          rw [Bool.and_eq_true, Bool.or_eq_true]
          refine ⟨hdig d1 (by simp), Or.inr ?_⟩
          rw [Bool.and_eq_true, Bool.or_eq_true]
          refine ⟨hdig b (by simp), Or.inr ?_⟩
          rw [Bool.and_eq_true]
          exact ⟨hdig c (by simp), (currencyTailCheck_iff _).mpr htail⟩
        · simp at hlen3

attribute [local semireducible] Rat.add Rat.mul Rat.sub Rat.inv in
/-- C7: the currency parser accepts exactly the strings of the regex
`^\d{1,3}(\.\d{3})*,\d{2}$`, returns `none` (the `ValidationError`) on
every other string, and on success strips the dot grouping separators,
converts the comma and returns the numeric value:
`parseCurrency "1.234,56" = 1234.56` while the wrongly grouped
`"1234.56"` is rejected. -/
theorem parseCurrency_spec :
    (∀ s : String, matchesCurrency s = true ↔ CurrencyLang s)
    ∧ (∀ s : String, matchesCurrency s = false → parseCurrency s = none)
    ∧ parseCurrency "1.234,56" = some (30864 / 25)
    ∧ parseCurrency "1234.56" = none := by
  refine ⟨matchesCurrency_iff, ?_, by decide, by decide⟩
  intro s h
  simp [parseCurrency, h]

/-- Witness for `parseCurrency_spec`: a rejected string parses to `none`,
and the accepted example is in the spec's language. -/
theorem parseCurrency_spec_witness :
    parseCurrency "abc" = none ∧ CurrencyLang "1.234,56" :=
  ⟨parseCurrency_spec.2.1 "abc" (by decide),
    (parseCurrency_spec.1 "1.234,56").mp (by decide)⟩

end CalcInv
